import Mathlib

/-!
Verification of the health-and-cadence monitor (`src/server/src/actor/health.rs`).

The Rust code is shallowly embedded.  Timestamps (`Instant`) and durations are
rationals measured in seconds; `f32` arithmetic is modelled exactly over `ℚ`
(the claims under study are about algorithmic structure, not float rounding);
`usize` counters are naturals with the saturating/wrapping behaviour of the source
made explicit; the one reachable panic (`Duration::from_secs_f32` applied to a
negative argument) makes `record_tick` return `Option`.
-/

/-- Value of `usize::MAX` on the 64-bit targets the server runs on. -/
def USIZE_MAX : ℕ := 2 ^ 64 - 1

/-- Rust `usize::saturating_add(1)` (health.rs lines 99 and 109). -/
def satAdd1 (n : ℕ) : ℕ := min (n + 1) USIZE_MAX

/-- Plain `usize` `+= 1` (health.rs line 93); wraps modulo `2^64` in release
builds. -/
def wrapAdd1 (n : ℕ) : ℕ := (n + 1) % (USIZE_MAX + 1)

/-- Rust `f32::clamp` for non-NaN inputs with `lo ≤ hi`. -/
def clampQ (x lo hi : ℚ) : ℚ := max lo (min x hi)

/-- Rust `Instant::duration_since`: elapsed seconds, saturating to zero when
the other instant is later (health.rs lines 96 and 112; `Instant::elapsed` at
line 123 is `duration_since` from the current time). -/
def durationSince (now earlier : ℚ) : ℚ := max (now - earlier) 0

/-- Modelled from the spec: `ContinuousExtremaMetricAccumulator` lives outside
`src/` (only `use crate::ContinuousExtremaMetricAccumulator` is visible).  The
spec describes a streaming aggregator that ingests a sequence of float samples
and tracks minimum, maximum and mean (and sample count) seen since its last
drain, the drain resetting it to empty. -/
structure ContinuousExtremaMetricAccumulator where
  count : ℕ
  total : ℚ
  low : Option ℚ
  high : Option ℚ
deriving DecidableEq, Repr

namespace ContinuousExtremaMetricAccumulator

/-- Modelled from the spec: the empty accumulator, the `Default` value that
`mem::take` leaves behind. -/
def empty : ContinuousExtremaMetricAccumulator := ⟨0, 0, none, none⟩

/-- Modelled from the spec: push one sample, updating count, running total and
the extrema. -/
def push (a : ContinuousExtremaMetricAccumulator) (x : ℚ) :
    ContinuousExtremaMetricAccumulator where
  count := a.count + 1
  total := a.total + x
  low := some (match a.low with | none => x | some l => min l x)
  high := some (match a.high with | none => x | some h => max h x)

end ContinuousExtremaMetricAccumulator

/-- The `Health` struct (health.rs lines 11-33).  The `system:
SimpleServerStatus` field is omitted: the current code never reads it (all
probing is commented out), so it carries no observable state. -/
structure Health where
  /-- Instant when cached OS gauges were last sampled. -/
  last : ℚ
  /-- Cached CPU fraction. -/
  cpu : ℚ
  cpu_steal : ℚ
  /-- Cached RAM fraction. -/
  ram : ℚ
  swap : ℚ
  /-- Cached tick completion fraction. -/
  missed_ticks : ℚ
  missed_ticks_start : ℚ
  /-- Ticks completed since `missed_ticks_start`. -/
  ticks_for_missed_ticks : ℕ
  /-- Seconds-per-tick accumulator. -/
  spt : ContinuousExtremaMetricAccumulator
  /-- Ticks-per-second accumulator. -/
  tps : ContinuousExtremaMetricAccumulator
  /-- Ticks in the current TPS measurement period. -/
  ticks : ℕ
  /-- Start of the TPS measurement period. -/
  tps_start : ℚ
deriving DecidableEq, Repr

namespace Health

/-- Constant `Health::CACHE` (health.rs line 37): cache gauges for 30 seconds. -/
def CACHE : ℚ := 30

/-- Rust `Health::default()` (health.rs lines 152-171), with `now` the creation
instant: `last` is set two cache intervals in the past so the first read
refreshes, and the gauges start at the hardcoded constants. -/
def init (now : ℚ) : Health where
  last := now - 2 * CACHE
  cpu := 3 / 20
  cpu_steal := 0
  ram := 3 / 10
  swap := 0
  missed_ticks := 0
  missed_ticks_start := now
  ticks_for_missed_ticks := 0
  spt := .empty
  tps := .empty
  ticks := 0
  tps_start := now

/-- Rust `Health::refresh_if_necessary` (health.rs lines 122-149): return
untouched on a cache hit; otherwise set `last` to now and store the hardcoded
gauge constants 0.15, 0.0, 0.3, 0.0 (the probing code is commented out in the
source). -/
def refresh_if_necessary (s : Health) (now : ℚ) : Health :=
  if durationSince now s.last ≤ CACHE then s
  else { s with last := now, cpu := 3 / 20, cpu_steal := 0, ram := 3 / 10, swap := 0 }

/-- Rust `Health::cpu` (health.rs lines 40-43), returning the value and the
post-call state (the receiver is `&mut self`). -/
def cpuRead (s : Health) (now : ℚ) : ℚ × Health :=
  ((refresh_if_necessary s now).cpu, refresh_if_necessary s now)

/-- Rust `Health::cpu_steal` (health.rs lines 46-49). -/
def cpuStealRead (s : Health) (now : ℚ) : ℚ × Health :=
  ((refresh_if_necessary s now).cpu_steal, refresh_if_necessary s now)

/-- Rust `Health::ram` (health.rs lines 52-55). -/
def ramRead (s : Health) (now : ℚ) : ℚ × Health :=
  ((refresh_if_necessary s now).ram, refresh_if_necessary s now)

/-- Rust `Health::missed_ticks` (health.rs lines 58-61). -/
def missedTicksRead (s : Health) (now : ℚ) : ℚ × Health :=
  ((refresh_if_necessary s now).missed_ticks, refresh_if_necessary s now)

/-- Rust `Health::bandwidth_rx` (health.rs lines 64-67): fixed 100 MB/s. -/
def bandwidth_rx (s : Health) : ℕ × Health := (100000000, s)

/-- Rust `Health::bandwidth_tx` (health.rs lines 70-73): fixed 50 MB/s. -/
def bandwidth_tx (s : Health) : ℕ × Health := (50000000, s)

/-- Rust `Health::connections` (health.rs lines 76-79): fixed 100. -/
def connections (s : Health) : ℕ × Health := (100, s)

/-- Rust `Health::take_tps` (health.rs lines 82-84): `mem::take(&mut self.tps)`. -/
def take_tps (s : Health) : ContinuousExtremaMetricAccumulator × Health :=
  (s.tps, { s with tps := .empty })

/-- Rust `Health::take_spt` (health.rs lines 87-89): `mem::take(&mut self.spt)`. -/
def take_spt (s : Health) : ContinuousExtremaMetricAccumulator × Health :=
  (s.spt, { s with spt := .empty })

/-- Lines 93-94 of `record_tick`: bump the completed-tick counter and push the
clamped elapsed duration. -/
def tickPre (s : Health) (elapsed : ℚ) : Health :=
  { s with
    ticks_for_missed_ticks := wrapAdd1 s.ticks_for_missed_ticks
    spt := s.spt.push (clampQ elapsed 0 10) }

/-- Lines 96-110 of `record_tick`: the TPS windowing step, for a tick period
`p` with `1 - p/2 ≥ 0` (otherwise `Duration::from_secs_f32` panics before this
branch is reached, which `record_tick` itself handles). -/
def tpsStep (p : ℚ) (s : Health) (now : ℚ) : Health :=
  if durationSince now s.tps_start ≥ 1 - p * (1 / 2) then
    if durationSince now s.tps_start ≥ 1 then
      { s with ticks := 0, tps := s.tps.push ((satAdd1 s.ticks : ℕ) : ℚ), tps_start := now }
    else
      { s with ticks := 1, tps := s.tps.push ((s.ticks : ℕ) : ℚ), tps_start := now }
  else
    { s with ticks := satAdd1 s.ticks }

/-- Lines 112-119 of `record_tick`: the missed-tick windowing step. -/
def missedStep (p : ℚ) (s : Health) (now : ℚ) : Health :=
  if durationSince now s.missed_ticks_start > 30 then
    { s with
      missed_ticks :=
        max (durationSince now s.missed_ticks_start * (1 / p) -
            (s.ticks_for_missed_ticks : ℚ)) 0 /
          (durationSince now s.missed_ticks_start * (1 / p))
      ticks_for_missed_ticks := 0
      missed_ticks_start := now }
  else s

/-- Rust `Health::record_tick` (health.rs lines 92-120) for tick period `p`
(the constant `G::TICK_PERIOD_SECS`).  `Duration::from_secs_f32(1.0 - p * 0.5)`
panics when its argument is negative, i.e. when `p > 2`; the panic is modelled
as `none`. -/
def record_tick (p : ℚ) (s : Health) (now elapsed : ℚ) : Option Health :=
  if 1 - p * (1 / 2) < 0 then none
  else some (missedStep p (tpsStep p (tickPre s elapsed) now) now)

/-- Outcome of one OS probe query: whether `update()` succeeded, and the four
optional fractional readings (`None` on an unsupported platform). -/
structure ProbeReadings where
  ok : Bool
  cpu_usage : Option ℚ
  cpu_stolen_usage : Option ℚ
  ram_usage : Option ℚ
  ram_swap_usage : Option ℚ
deriving DecidableEq, Repr

/-- Modelled from the spec, as a refinement reference only (the function
`refresh_if_necessary` above, taken from the source, is the authority): the refresh behaviour §4.1 of
the spec describes — on a cache miss set `last_refresh = now`, query the OS
probe, store the returned fractions clamped to `[0, 1]`, and keep the previous
cached value for any gauge the probe could not report. -/
def refreshSpec (probe : ProbeReadings) (s : Health) (now : ℚ) : Health :=
  if durationSince now s.last ≤ CACHE then s
  else
    { s with
      last := now
      cpu := match probe.cpu_usage with | none => s.cpu | some v => clampQ v 0 1
      cpu_steal := match probe.cpu_stolen_usage with | none => s.cpu_steal | some v => clampQ v 0 1
      ram := match probe.ram_usage with | none => s.ram | some v => clampQ v 0 1
      swap := match probe.ram_swap_usage with | none => s.swap | some v => clampQ v 0 1 }

/-- One external interaction with the monitor, tagged with the instant at
which it happens. -/
inductive HOp where
  | readCpu (now : ℚ)
  | readCpuSteal (now : ℚ)
  | readRam (now : ℚ)
  | readMissed (now : ℚ)
  | tick (now elapsed : ℚ)
  | drainTps
  | drainSpt
deriving DecidableEq, Repr

/-- Effect of one operation on the monitor state; a panicking `record_tick`
yields `none`. -/
def stepOp (p : ℚ) (s : Health) : HOp → Option Health
  | .readCpu now => some (cpuRead s now).2
  | .readCpuSteal now => some (cpuStealRead s now).2
  | .readRam now => some (ramRead s now).2
  | .readMissed now => some (missedTicksRead s now).2
  | .tick now elapsed => record_tick p s now elapsed
  | .drainTps => some (take_tps s).2
  | .drainSpt => some (take_spt s).2

/-- Runs a sequence of operations from a starting state. -/
def runOps (p : ℚ) (s : Health) : List HOp → Option Health
  | [] => some s
  | op :: rest =>
    match stepOp p s op with
    | none => none
    | some s2 => runOps p s2 rest

/-- All five fraction fields lie in `[0, 1]`. -/
def fracsOk (s : Health) : Prop :=
  0 ≤ s.cpu ∧ s.cpu ≤ 1 ∧ 0 ≤ s.cpu_steal ∧ s.cpu_steal ≤ 1 ∧ 0 ≤ s.ram ∧ s.ram ≤ 1 ∧
    0 ≤ s.swap ∧ s.swap ≤ 1 ∧ 0 ≤ s.missed_ticks ∧ s.missed_ticks ≤ 1

/-! Helper lemmas: frame facts for the three phases of `record_tick`, and the
shape of `record_tick` when it does not panic. -/

theorem record_tick_eq_some (p : ℚ) (s : Health) (now e : ℚ)
    (h : ¬ 1 - p * (1 / 2) < 0) :
    record_tick p s now e = some (missedStep p (tpsStep p (tickPre s e) now) now) := by
  simp only [record_tick, if_neg h]

theorem record_tick_some_inv (p : ℚ) (s : Health) (now e : ℚ) (s' : Health)
    (h : record_tick p s now e = some s') :
    ¬ 1 - p * (1 / 2) < 0 ∧ s' = missedStep p (tpsStep p (tickPre s e) now) now := by
  by_cases hc : 1 - p * (1 / 2) < 0
  · simp only [record_tick, if_pos hc] at h
    exact Option.noConfusion h
  · refine ⟨hc, ?_⟩
    rw [record_tick_eq_some p s now e hc, Option.some_inj] at h
    exact h.symm

theorem satAdd1_eq (n : ℕ) (h : n + 1 ≤ USIZE_MAX) : satAdd1 n = n + 1 :=
  min_eq_left h

theorem wrapAdd1_eq (n : ℕ) (h : n + 1 ≤ USIZE_MAX) : wrapAdd1 n = n + 1 := by
  have hlt : n + 1 < USIZE_MAX + 1 := Nat.lt_succ_of_le h
  exact Nat.mod_eq_of_lt hlt

theorem tickPre_frame (s : Health) (e : ℚ) :
    (tickPre s e).last = s.last ∧ (tickPre s e).cpu = s.cpu ∧
      (tickPre s e).cpu_steal = s.cpu_steal ∧ (tickPre s e).ram = s.ram ∧
      (tickPre s e).swap = s.swap ∧ (tickPre s e).missed_ticks = s.missed_ticks ∧
      (tickPre s e).missed_ticks_start = s.missed_ticks_start ∧
      (tickPre s e).tps = s.tps ∧ (tickPre s e).ticks = s.ticks ∧
      (tickPre s e).tps_start = s.tps_start :=
  ⟨rfl, rfl, rfl, rfl, rfl, rfl, rfl, rfl, rfl, rfl⟩

theorem tickPre_spt (s : Health) (e : ℚ) :
    (tickPre s e).spt = s.spt.push (clampQ e 0 10) := rfl

theorem tickPre_ticks_for (s : Health) (e : ℚ) :
    (tickPre s e).ticks_for_missed_ticks = wrapAdd1 s.ticks_for_missed_ticks := rfl

theorem tpsStep_frame (p : ℚ) (s : Health) (now : ℚ) :
    (tpsStep p s now).last = s.last ∧ (tpsStep p s now).cpu = s.cpu ∧
      (tpsStep p s now).cpu_steal = s.cpu_steal ∧ (tpsStep p s now).ram = s.ram ∧
      (tpsStep p s now).swap = s.swap ∧ (tpsStep p s now).missed_ticks = s.missed_ticks ∧
      (tpsStep p s now).missed_ticks_start = s.missed_ticks_start ∧
      (tpsStep p s now).ticks_for_missed_ticks = s.ticks_for_missed_ticks ∧
      (tpsStep p s now).spt = s.spt := by
  unfold tpsStep
  split_ifs <;> exact ⟨rfl, rfl, rfl, rfl, rfl, rfl, rfl, rfl, rfl⟩

theorem missedStep_frame (p : ℚ) (s : Health) (now : ℚ) :
    (missedStep p s now).last = s.last ∧ (missedStep p s now).cpu = s.cpu ∧
      (missedStep p s now).cpu_steal = s.cpu_steal ∧ (missedStep p s now).ram = s.ram ∧
      (missedStep p s now).swap = s.swap ∧ (missedStep p s now).spt = s.spt ∧
      (missedStep p s now).tps = s.tps ∧ (missedStep p s now).ticks = s.ticks ∧
      (missedStep p s now).tps_start = s.tps_start := by
  unfold missedStep
  split_ifs <;> exact ⟨rfl, rfl, rfl, rfl, rfl, rfl, rfl, rfl, rfl⟩

theorem refresh_frame (s : Health) (now : ℚ) :
    (refresh_if_necessary s now).missed_ticks = s.missed_ticks ∧
      (refresh_if_necessary s now).missed_ticks_start = s.missed_ticks_start ∧
      (refresh_if_necessary s now).ticks_for_missed_ticks = s.ticks_for_missed_ticks ∧
      (refresh_if_necessary s now).spt = s.spt ∧
      (refresh_if_necessary s now).tps = s.tps ∧
      (refresh_if_necessary s now).ticks = s.ticks ∧
      (refresh_if_necessary s now).tps_start = s.tps_start := by
  unfold refresh_if_necessary
  split_ifs <;> exact ⟨rfl, rfl, rfl, rfl, rfl, rfl, rfl⟩

end Health

/-- Claim C1: in `record_tick(now, elapsed)` with nominal tick period `p` and
`window_elapsed = now - tps_window_start`, when `window_elapsed ≥ 1s - p/2`
and `window_elapsed ≥ 1s` the in-window tick counter is incremented once more,
the resulting count is pushed into the TPS accumulator and the counter resets
to 0; when `window_elapsed ≥ 1s - p/2` but `window_elapsed < 1s` the current
counter is pushed unincremented and the counter resets to 1; in both cases
`tps_window_start` becomes `now`; otherwise the counter is incremented and no
TPS sample is pushed.  (The no-saturation hypothesis `hk` makes the machine
increment an exact increment.) -/
theorem record_tick_tps_window (p : ℚ) (s : Health) (now e : ℚ) (s' : Health)
    (hk : s.ticks + 1 ≤ USIZE_MAX)
    (h : Health.record_tick p s now e = some s') :
    (1 - p * (1 / 2) ≤ durationSince now s.tps_start →
        1 ≤ durationSince now s.tps_start →
        s'.tps = s.tps.push ((s.ticks : ℚ) + 1) ∧ s'.ticks = 0 ∧ s'.tps_start = now) ∧
    (1 - p * (1 / 2) ≤ durationSince now s.tps_start →
        durationSince now s.tps_start < 1 →
        s'.tps = s.tps.push ((s.ticks : ℚ)) ∧ s'.ticks = 1 ∧ s'.tps_start = now) ∧
    (durationSince now s.tps_start < 1 - p * (1 / 2) →
        s'.ticks = s.ticks + 1 ∧ s'.tps = s.tps ∧ s'.tps_start = s.tps_start) := by
  obtain ⟨hc, rfl⟩ := Health.record_tick_some_inv p s now e s' h
  obtain ⟨-, -, -, -, -, -, hMtps, hMticks, hMstart⟩ :=
    Health.missedStep_frame p (Health.tpsStep p (Health.tickPre s e) now) now
  rw [hMtps, hMticks, hMstart]
  unfold Health.tpsStep
  refine ⟨fun h1 h2 => ?_, fun h1 h2 => ?_, fun h1 => ?_⟩
  · split_ifs with hw1 hw2
    · refine ⟨?_, rfl, rfl⟩
      show s.tps.push ((satAdd1 s.ticks : ℕ) : ℚ) = s.tps.push ((s.ticks : ℚ) + 1)
      rw [Health.satAdd1_eq s.ticks hk]
      norm_cast
    · exact absurd h2 hw2
    · exact absurd h1 hw1
  · split_ifs with hw1 hw2
    · exact absurd hw2 (not_le.mpr h2)
    · exact ⟨rfl, rfl, rfl⟩
    · exact absurd h1 hw1
  · split_ifs with hw1 hw2
    · exact absurd hw1 (not_le.mpr h1)
    · exact absurd hw1 (not_le.mpr h1)
    · refine ⟨?_, rfl, rfl⟩
      show satAdd1 s.ticks = s.ticks + 1
      exact Health.satAdd1_eq s.ticks hk

/-- Witness for C1: a concrete call that closes a full-second window (period
0.5s, window elapsed 2s, counter 0) pushes count 1, zeroes the counter and
moves the window start to `now`. -/
theorem record_tick_tps_window_witness :
    (Health.missedStep (1 / 2)
          (Health.tpsStep (1 / 2) (Health.tickPre (Health.init 0) (1 / 10)) 2) 2).tps =
        (Health.init 0).tps.push (((Health.init 0).ticks : ℚ) + 1) ∧
      (Health.missedStep (1 / 2)
          (Health.tpsStep (1 / 2) (Health.tickPre (Health.init 0) (1 / 10)) 2) 2).ticks = 0 ∧
      (Health.missedStep (1 / 2)
          (Health.tpsStep (1 / 2) (Health.tickPre (Health.init 0) (1 / 10)) 2) 2).tps_start = 2 := by
  have hc : ¬ (1 : ℚ) - (1 / 2) * (1 / 2) < 0 := by norm_num
  have h := Health.record_tick_eq_some (1 / 2) (Health.init 0) 2 (1 / 10) hc
  have hk : (Health.init 0).ticks + 1 ≤ USIZE_MAX := by
    norm_num [Health.init, USIZE_MAX]
  exact (record_tick_tps_window (1 / 2) (Health.init 0) 2 (1 / 10) _ hk h).1
    (by norm_num [durationSince, Health.init, max_def])
    (by norm_num [durationSince, Health.init, max_def])

/-- Claim C5: every `record_tick(now, elapsed)` pushes `elapsed` clamped to
`[0, 10]` into the seconds-per-tick accumulator; pushing 15.0 records 10.0 and
pushing -3.0 records 0.0. -/
theorem record_tick_spt_clamped (p : ℚ) (s : Health) (now e : ℚ) (s' : Health) :
    (Health.record_tick p s now e = some s' →
        s'.spt = s.spt.push (clampQ e 0 10)) ∧
    clampQ 15 0 10 = 10 ∧ clampQ (-3) 0 10 = 0 := by
  refine ⟨fun h => ?_, by norm_num [clampQ, max_def, min_def],
    by norm_num [clampQ, max_def, min_def]⟩
  obtain ⟨hc, rfl⟩ := Health.record_tick_some_inv p s now e s' h
  obtain ⟨-, -, -, -, -, hMspt, -, -, -⟩ :=
    Health.missedStep_frame p (Health.tpsStep p (Health.tickPre s e) now) now
  obtain ⟨-, -, -, -, -, -, -, -, hTspt⟩ :=
    Health.tpsStep_frame p (Health.tickPre s e) now
  rw [hMspt, hTspt, Health.tickPre_spt]

/-- Witness for C5: a call with `elapsed = 15` records the clamped sample 10. -/
theorem record_tick_spt_clamped_witness :
    (Health.missedStep 1 (Health.tpsStep 1 (Health.tickPre (Health.init 0) 15) 2) 2).spt =
      (Health.init 0).spt.push 10 := by
  have hc : ¬ (1 : ℚ) - 1 * (1 / 2) < 0 := by norm_num
  have h := Health.record_tick_eq_some 1 (Health.init 0) 2 15 hc
  have h5 := record_tick_spt_clamped 1 (Health.init 0) 2 15
    (Health.missedStep 1 (Health.tpsStep 1 (Health.tickPre (Health.init 0) 15) 2) 2)
  rw [h5.1 h, h5.2.1]

/-- Claim C10: `record_tick` computes its TPS threshold as
`Duration::from_secs_f32(1.0 - TICK_PERIOD_SECS * 0.5)`, which requires a
non-negative argument: the call is panic-free there only when the tick period
is at most 2 seconds, and for every period in `(0, 2]` the argument is
non-negative and no panic occurs. -/
theorem record_tick_panic_free_iff (p : ℚ) (s : Health) (now e : ℚ) :
    (0 < p → p ≤ 2 → 0 ≤ 1 - p * (1 / 2) ∧ (Health.record_tick p s now e).isSome) ∧
    (2 < p → Health.record_tick p s now e = none) := by
  constructor
  · intro hp h2
    have hge : (0 : ℚ) ≤ 1 - p * (1 / 2) := by linarith
    refine ⟨hge, ?_⟩
    rw [Health.record_tick_eq_some p s now e (not_lt.mpr hge)]
    rfl
  · intro h2
    have hlt : (1 : ℚ) - p * (1 / 2) < 0 := by linarith
    simp only [Health.record_tick, if_pos hlt]

/-- Witness for C10: with period 1 the tick completes; with period 3 the
`from_secs_f32` argument is negative and the call panics. -/
theorem record_tick_panic_free_iff_witness :
    (Health.record_tick 1 (Health.init 0) 0 0).isSome = true ∧
      Health.record_tick 3 (Health.init 0) 0 0 = none :=
  ⟨((record_tick_panic_free_iff 1 (Health.init 0) 0 0).1 (by norm_num) (by norm_num)).2,
    (record_tick_panic_free_iff 3 (Health.init 0) 0 0).2 (by norm_num)⟩

/-- Claim C2: in `record_tick(now, elapsed)` with `now - missed_ticks_window_start > 30s`
and tick period `p > 0`, the missed-tick ratio is recomputed as
`max(0, scheduled - completed) / scheduled` with
`scheduled = window_seconds * (1/p)` and `completed` the completed-tick
counter (which includes the current tick); the counter then resets to 0 and
the window start moves to `now`; if `completed ≥ scheduled` the ratio is 0. -/
theorem record_tick_missed_window (p : ℚ) (s : Health) (now e : ℚ) (s' : Health)
    (hp : 0 < p) (hk : s.ticks_for_missed_ticks + 1 ≤ USIZE_MAX)
    (hw : durationSince now s.missed_ticks_start > 30)
    (h : Health.record_tick p s now e = some s') :
    s'.missed_ticks =
        max (durationSince now s.missed_ticks_start * (1 / p) -
            ((s.ticks_for_missed_ticks : ℚ) + 1)) 0 /
          (durationSince now s.missed_ticks_start * (1 / p)) ∧
      s'.ticks_for_missed_ticks = 0 ∧
      s'.missed_ticks_start = now ∧
      (durationSince now s.missed_ticks_start * (1 / p) ≤ (s.ticks_for_missed_ticks : ℚ) + 1 →
        s'.missed_ticks = 0) := by
  obtain ⟨hc, rfl⟩ := Health.record_tick_some_inv p s now e s' h
  obtain ⟨-, -, -, -, -, -, hTm, hTk, -⟩ :=
    Health.tpsStep_frame p (Health.tickPre s e) now
  rw [(Health.tickPre_frame s e).2.2.2.2.2.2.1] at hTm
  rw [Health.tickPre_ticks_for, Health.wrapAdd1_eq s.ticks_for_missed_ticks hk] at hTk
  unfold Health.missedStep
  rw [hTm, hTk]
  split_ifs
  refine ⟨?_, rfl, rfl, fun hle => ?_⟩
  · show max (durationSince now s.missed_ticks_start * (1 / p) -
          ((s.ticks_for_missed_ticks + 1 : ℕ) : ℚ)) 0 /
        (durationSince now s.missed_ticks_start * (1 / p)) =
      max (durationSince now s.missed_ticks_start * (1 / p) -
          ((s.ticks_for_missed_ticks : ℚ) + 1)) 0 /
        (durationSince now s.missed_ticks_start * (1 / p))
    norm_cast
  · show max (durationSince now s.missed_ticks_start * (1 / p) -
          ((s.ticks_for_missed_ticks + 1 : ℕ) : ℚ)) 0 /
        (durationSince now s.missed_ticks_start * (1 / p)) = 0
    have hE : durationSince now s.missed_ticks_start * (1 / p) -
        ((s.ticks_for_missed_ticks + 1 : ℕ) : ℚ) ≤ 0 := by
      push_cast
      linarith
    rw [max_eq_right hE, zero_div]

/-- Witness for C2: period 1s, window start 0, call at t = 40 with one tick
completed in the window: the counter resets and the window start becomes 40. -/
theorem record_tick_missed_window_witness :
    (Health.missedStep 1 (Health.tpsStep 1 (Health.tickPre (Health.init 0) 0) 40)
          40).ticks_for_missed_ticks = 0 ∧
      (Health.missedStep 1 (Health.tpsStep 1 (Health.tickPre (Health.init 0) 0) 40)
          40).missed_ticks_start = 40 := by
  have hc : ¬ (1 : ℚ) - 1 * (1 / 2) < 0 := by norm_num
  have h := Health.record_tick_eq_some 1 (Health.init 0) 40 0 hc
  have h2 := record_tick_missed_window 1 (Health.init 0) 40 0 _ (by norm_num)
    (by norm_num [Health.init, USIZE_MAX])
    (by norm_num [durationSince, Health.init, max_def]) h
  exact ⟨h2.2.1, h2.2.2.1⟩

/-- Counterexample to claim C3 as stated: with more than 30 seconds elapsed
since the last refresh and the probe reporting cpu 0.9, steal 0, ram 0.5,
swap 0, the refresh found in the source does not store the clamped probe readings — it
differs from the spec-described refresh (it stores the hardcoded constants
instead; the probe is never consulted). -/
theorem refresh_probe_counterexample :
    Health.refresh_if_necessary (Health.init 0) 100 ≠
      Health.refreshSpec ⟨true, some (9 / 10), some 0, some (1 / 2), some 0⟩
        (Health.init 0) 100 := by
  intro hEq
  have hmiss : ¬ durationSince (100 : ℚ) (Health.init 0).last ≤ Health.CACHE := by
    norm_num [durationSince, Health.init, Health.CACHE, max_def]
  have hL : (Health.refresh_if_necessary (Health.init 0) 100).cpu = 3 / 20 := by
    unfold Health.refresh_if_necessary
    rw [if_neg hmiss]
  have hR : (Health.refreshSpec ⟨true, some (9 / 10), some 0, some (1 / 2), some 0⟩
      (Health.init 0) 100).cpu = clampQ (9 / 10) 0 1 := by
    unfold Health.refreshSpec
    rw [if_neg hmiss]
  have hcpu := congrArg Health.cpu hEq
  rw [hL, hR] at hcpu
  norm_num [clampQ, max_def, min_def] at hcpu

/-- Amended claim C3: for every gauge read performed when more than 30 seconds
have elapsed since `last_refresh`, the refresh sets `last_refresh` to now and
stores the fixed constants cpu = 0.15, cpu_steal = 0, ram = 0.3, swap = 0; the
OS probe is never queried, the stored constants lie in `[0, 1]`, and no error
is surfaced to the caller. -/
theorem refresh_hardcoded_gauges (s : Health) (now : ℚ)
    (h : Health.CACHE < durationSince now s.last) :
    Health.refresh_if_necessary s now =
        { s with last := now, cpu := 3 / 20, cpu_steal := 0, ram := 3 / 10, swap := 0 } ∧
      (Health.cpuRead s now).1 = 3 / 20 ∧ (Health.cpuStealRead s now).1 = 0 ∧
      (Health.ramRead s now).1 = 3 / 10 ∧ (Health.missedTicksRead s now).1 = s.missed_ticks := by
  have e1 : Health.refresh_if_necessary s now =
      { s with last := now, cpu := 3 / 20, cpu_steal := 0, ram := 3 / 10, swap := 0 } := by
    unfold Health.refresh_if_necessary
    rw [if_neg (not_le.mpr h)]
  refine ⟨e1, ?_, ?_, ?_, ?_⟩
  · show (Health.refresh_if_necessary s now).cpu = 3 / 20
    rw [e1]
  · show (Health.refresh_if_necessary s now).cpu_steal = 0
    rw [e1]
  · show (Health.refresh_if_necessary s now).ram = 3 / 10
    rw [e1]
  · show (Health.refresh_if_necessary s now).missed_ticks = s.missed_ticks
    rw [e1]

/-- Witness for the amended C3: a fresh monitor read 100 seconds in stores the
constants and moves `last` to the read instant. -/
theorem refresh_hardcoded_gauges_witness :
    Health.refresh_if_necessary (Health.init 0) 100 =
      { Health.init 0 with
        last := 100, cpu := 3 / 20, cpu_steal := 0, ram := 3 / 10, swap := 0 } :=
  (refresh_hardcoded_gauges (Health.init 0) 100
    (by norm_num [durationSince, Health.init, Health.CACHE, max_def])).1

/-- Claim C4: gauge reads performed while `now - last_refresh ≤ 30s` leave the
state untouched and return the cached values, so two reads inside one cache
window return identical values. -/
theorem refresh_cache_hit_pure (s : Health) (now1 now2 : ℚ)
    (h1 : durationSince now1 s.last ≤ Health.CACHE)
    (h2 : durationSince now2 s.last ≤ Health.CACHE) :
    Health.cpuRead s now1 = (s.cpu, s) ∧ Health.cpuRead s now2 = (s.cpu, s) ∧
      Health.cpuStealRead s now1 = (s.cpu_steal, s) ∧
      Health.cpuStealRead s now2 = (s.cpu_steal, s) ∧
      Health.ramRead s now1 = (s.ram, s) ∧ Health.ramRead s now2 = (s.ram, s) ∧
      Health.missedTicksRead s now1 = (s.missed_ticks, s) ∧
      Health.missedTicksRead s now2 = (s.missed_ticks, s) := by
  have e1 : Health.refresh_if_necessary s now1 = s := by
    unfold Health.refresh_if_necessary
    rw [if_pos h1]
  have e2 : Health.refresh_if_necessary s now2 = s := by
    unfold Health.refresh_if_necessary
    rw [if_pos h2]
  unfold Health.cpuRead Health.cpuStealRead Health.ramRead Health.missedTicksRead
  rw [e1, e2]
  exact ⟨rfl, rfl, rfl, rfl, rfl, rfl, rfl, rfl⟩

/-- Witness for C4: reads at t = 50 and t = 60 on a monitor refreshed at
t = 40 both hit the cache and return the same value and state. -/
theorem refresh_cache_hit_pure_witness :
    Health.cpuRead (Health.init 100) 50 = ((Health.init 100).cpu, Health.init 100) ∧
      Health.cpuRead (Health.init 100) 60 = ((Health.init 100).cpu, Health.init 100) := by
  have hcall := refresh_cache_hit_pure (Health.init 100) 50 60
    (by norm_num [durationSince, Health.init, Health.CACHE, max_def])
    (by norm_num [durationSince, Health.init, Health.CACHE, max_def])
  exact ⟨hcall.1, hcall.2.1⟩

/-- Claim C8: every public read accessor is total — for every state it returns
a value (the cached field or the hardcoded refresh constant, and the fixed
bandwidth/connection constants) and has no failure mode. -/
theorem read_accessors_total (s : Health) (now : ℚ) :
    ((Health.cpuRead s now).1 = s.cpu ∨ (Health.cpuRead s now).1 = 3 / 20) ∧
      ((Health.cpuStealRead s now).1 = s.cpu_steal ∨ (Health.cpuStealRead s now).1 = 0) ∧
      ((Health.ramRead s now).1 = s.ram ∨ (Health.ramRead s now).1 = 3 / 10) ∧
      (Health.missedTicksRead s now).1 = s.missed_ticks ∧
      (Health.bandwidth_rx s).1 = 100000000 ∧
      (Health.bandwidth_tx s).1 = 50000000 ∧
      (Health.connections s).1 = 100 := by
  by_cases hc : durationSince now s.last ≤ Health.CACHE
  · have e1 : Health.refresh_if_necessary s now = s := by
      unfold Health.refresh_if_necessary
      rw [if_pos hc]
    unfold Health.cpuRead Health.cpuStealRead Health.ramRead Health.missedTicksRead
    rw [e1]
    exact ⟨Or.inl rfl, Or.inl rfl, Or.inl rfl, rfl, rfl, rfl, rfl⟩
  · have e1 : Health.refresh_if_necessary s now =
        { s with last := now, cpu := 3 / 20, cpu_steal := 0, ram := 3 / 10, swap := 0 } := by
      unfold Health.refresh_if_necessary
      rw [if_neg hc]
    unfold Health.cpuRead Health.cpuStealRead Health.ramRead Health.missedTicksRead
    rw [e1]
    exact ⟨Or.inr rfl, Or.inr rfl, Or.inr rfl, rfl, rfl, rfl, rfl⟩

/-- Claim C9: `take_tps` and `take_spt` return the accumulated summary and
leave the accumulator empty; a second drain with no intervening `record_tick`
returns the empty summary; the other accumulator is untouched. -/
theorem take_drains_and_resets (s : Health) :
    (Health.take_tps s).1 = s.tps ∧
      ((Health.take_tps s).2).tps = ContinuousExtremaMetricAccumulator.empty ∧
      (Health.take_tps ((Health.take_tps s).2)).1 = ContinuousExtremaMetricAccumulator.empty ∧
      (Health.take_spt s).1 = s.spt ∧
      ((Health.take_spt s).2).spt = ContinuousExtremaMetricAccumulator.empty ∧
      (Health.take_spt ((Health.take_spt s).2)).1 = ContinuousExtremaMetricAccumulator.empty ∧
      ((Health.take_tps s).2).spt = s.spt ∧ ((Health.take_spt s).2).tps = s.tps :=
  ⟨rfl, rfl, rfl, rfl, rfl, rfl, rfl, rfl⟩

/-- Claim C6: read accessors never mutate tick-cadence state (the two
accumulators, the tick counters, the window-start instants — nor the cached
missed-tick ratio), and `record_tick` never mutates the refresh-managed gauge
cache (`last`, cpu, cpu_steal, ram, swap). -/
theorem reads_ticks_frame (p : ℚ) (s : Health) (now e : ℚ) (s' : Health) :
    ((Health.cpuRead s now).2.spt = s.spt ∧ (Health.cpuRead s now).2.tps = s.tps ∧
        (Health.cpuRead s now).2.ticks = s.ticks ∧
        (Health.cpuRead s now).2.ticks_for_missed_ticks = s.ticks_for_missed_ticks ∧
        (Health.cpuRead s now).2.tps_start = s.tps_start ∧
        (Health.cpuRead s now).2.missed_ticks_start = s.missed_ticks_start ∧
        (Health.cpuRead s now).2.missed_ticks = s.missed_ticks) ∧
      ((Health.cpuStealRead s now).2.spt = s.spt ∧ (Health.cpuStealRead s now).2.tps = s.tps ∧
        (Health.cpuStealRead s now).2.ticks = s.ticks ∧
        (Health.cpuStealRead s now).2.ticks_for_missed_ticks = s.ticks_for_missed_ticks ∧
        (Health.cpuStealRead s now).2.tps_start = s.tps_start ∧
        (Health.cpuStealRead s now).2.missed_ticks_start = s.missed_ticks_start ∧
        (Health.cpuStealRead s now).2.missed_ticks = s.missed_ticks) ∧
      ((Health.ramRead s now).2.spt = s.spt ∧ (Health.ramRead s now).2.tps = s.tps ∧
        (Health.ramRead s now).2.ticks = s.ticks ∧
        (Health.ramRead s now).2.ticks_for_missed_ticks = s.ticks_for_missed_ticks ∧
        (Health.ramRead s now).2.tps_start = s.tps_start ∧
        (Health.ramRead s now).2.missed_ticks_start = s.missed_ticks_start ∧
        (Health.ramRead s now).2.missed_ticks = s.missed_ticks) ∧
      ((Health.missedTicksRead s now).2.spt = s.spt ∧
        (Health.missedTicksRead s now).2.tps = s.tps ∧
        (Health.missedTicksRead s now).2.ticks = s.ticks ∧
        (Health.missedTicksRead s now).2.ticks_for_missed_ticks = s.ticks_for_missed_ticks ∧
        (Health.missedTicksRead s now).2.tps_start = s.tps_start ∧
        (Health.missedTicksRead s now).2.missed_ticks_start = s.missed_ticks_start ∧
        (Health.missedTicksRead s now).2.missed_ticks = s.missed_ticks) ∧
      (Health.record_tick p s now e = some s' →
        s'.cpu = s.cpu ∧ s'.cpu_steal = s.cpu_steal ∧ s'.ram = s.ram ∧ s'.swap = s.swap ∧
          s'.last = s.last) := by
  obtain ⟨hm, hms, hk, hspt, htps, hticks, hstart⟩ := Health.refresh_frame s now
  have hR : (Health.refresh_if_necessary s now).spt = s.spt ∧
      (Health.refresh_if_necessary s now).tps = s.tps ∧
      (Health.refresh_if_necessary s now).ticks = s.ticks ∧
      (Health.refresh_if_necessary s now).ticks_for_missed_ticks = s.ticks_for_missed_ticks ∧
      (Health.refresh_if_necessary s now).tps_start = s.tps_start ∧
      (Health.refresh_if_necessary s now).missed_ticks_start = s.missed_ticks_start ∧
      (Health.refresh_if_necessary s now).missed_ticks = s.missed_ticks :=
    ⟨hspt, htps, hticks, hk, hstart, hms, hm⟩
  refine ⟨hR, hR, hR, hR, fun h => ?_⟩
  obtain ⟨hc, rfl⟩ := Health.record_tick_some_inv p s now e s' h
  obtain ⟨hMl, hMc, hMcs, hMr, hMsw, -, -, -, -⟩ :=
    Health.missedStep_frame p (Health.tpsStep p (Health.tickPre s e) now) now
  obtain ⟨hTl, hTc, hTcs, hTr, hTsw, -, -, -, -⟩ :=
    Health.tpsStep_frame p (Health.tickPre s e) now
  have hP := Health.tickPre_frame s e
  exact ⟨(hMc.trans hTc).trans hP.2.1, (hMcs.trans hTcs).trans hP.2.2.1,
    (hMr.trans hTr).trans hP.2.2.2.1, (hMsw.trans hTsw).trans hP.2.2.2.2.1,
    (hMl.trans hTl).trans hP.1⟩

/-- Witness for C6: a concrete `record_tick` call at t = 2 leaves every
refresh-managed gauge field of the initial monitor unchanged. -/
theorem reads_ticks_frame_witness :
    (Health.missedStep 1 (Health.tpsStep 1 (Health.tickPre (Health.init 0) 0) 2) 2).cpu =
        (Health.init 0).cpu ∧
      (Health.missedStep 1 (Health.tpsStep 1 (Health.tickPre (Health.init 0) 0) 2) 2).cpu_steal =
        (Health.init 0).cpu_steal ∧
      (Health.missedStep 1 (Health.tpsStep 1 (Health.tickPre (Health.init 0) 0) 2) 2).ram =
        (Health.init 0).ram ∧
      (Health.missedStep 1 (Health.tpsStep 1 (Health.tickPre (Health.init 0) 0) 2) 2).swap =
        (Health.init 0).swap ∧
      (Health.missedStep 1 (Health.tpsStep 1 (Health.tickPre (Health.init 0) 0) 2) 2).last =
        (Health.init 0).last := by
  have hc : ¬ (1 : ℚ) - 1 * (1 / 2) < 0 := by norm_num
  have h := Health.record_tick_eq_some 1 (Health.init 0) 2 0 hc
  exact (reads_ticks_frame 1 (Health.init 0) 2 0 _).2.2.2.2 h

/-- Refreshing preserves the fraction-range invariant: it either leaves the
gauges alone or stores constants inside `[0, 1]`. -/
theorem refresh_fracsOk (s : Health) (now : ℚ) (hs : Health.fracsOk s) :
    Health.fracsOk (Health.refresh_if_necessary s now) := by
  obtain ⟨h1, h2, h3, h4, h5, h6, h7, h8, h9, h10⟩ := hs
  unfold Health.refresh_if_necessary
  split_ifs with hc
  · exact ⟨h1, h2, h3, h4, h5, h6, h7, h8, h9, h10⟩
  · unfold Health.fracsOk
    refine ⟨by norm_num, by norm_num, by norm_num, by norm_num, by norm_num, by norm_num,
      by norm_num, by norm_num, h9, h10⟩

/-- A completed `record_tick` preserves the fraction-range invariant; the only
fraction it writes is the missed-tick ratio, a quotient in `[0, 1]` whenever
the tick period is positive. -/
theorem record_tick_fracsOk (p : ℚ) (s : Health) (now e : ℚ) (s' : Health)
    (hp : 0 < p) (hs : Health.fracsOk s) (h : Health.record_tick p s now e = some s') :
    Health.fracsOk s' := by
  obtain ⟨hc, rfl⟩ := Health.record_tick_some_inv p s now e s' h
  obtain ⟨-, hTc, hTcs, hTr, hTsw, hTm, -, -, -⟩ :=
    Health.tpsStep_frame p (Health.tickPre s e) now
  have hsT : Health.fracsOk (Health.tpsStep p (Health.tickPre s e) now) := by
    unfold Health.fracsOk
    rw [hTc, hTcs, hTr, hTsw, hTm]
    exact hs
  set T := Health.tpsStep p (Health.tickPre s e) now with hTdef
  obtain ⟨g1, g2, g3, g4, g5, g6, g7, g8, g9, g10⟩ := hsT
  unfold Health.fracsOk Health.missedStep
  split_ifs with hcond
  · have hme : (0 : ℚ) < durationSince now T.missed_ticks_start :=
      lt_trans (by norm_num) hcond
    have hsch : (0 : ℚ) < durationSince now T.missed_ticks_start * (1 / p) :=
      mul_pos hme (one_div_pos.mpr hp)
    refine ⟨g1, g2, g3, g4, g5, g6, g7, g8, ?_, ?_⟩
    · exact div_nonneg (le_max_right _ _) (le_of_lt hsch)
    · show max (durationSince now T.missed_ticks_start * (1 / p) -
            (T.ticks_for_missed_ticks : ℚ)) 0 /
          (durationSince now T.missed_ticks_start * (1 / p)) ≤ 1
      rw [div_le_one hsch]
      exact max_le (sub_le_self _ (Nat.cast_nonneg _)) (le_of_lt hsch)
  · exact ⟨g1, g2, g3, g4, g5, g6, g7, g8, g9, g10⟩

/-- Every monitor operation preserves the fraction-range invariant. -/
theorem stepOp_fracsOk (p : ℚ) (s : Health) (op : Health.HOp) (s' : Health)
    (hp : 0 < p) (hs : Health.fracsOk s) (h : Health.stepOp p s op = some s') :
    Health.fracsOk s' := by
  cases op with
  | readCpu now =>
    simp only [Health.stepOp, Option.some_inj] at h
    rw [← h]
    exact refresh_fracsOk s now hs
  | readCpuSteal now =>
    simp only [Health.stepOp, Option.some_inj] at h
    rw [← h]
    exact refresh_fracsOk s now hs
  | readRam now =>
    simp only [Health.stepOp, Option.some_inj] at h
    rw [← h]
    exact refresh_fracsOk s now hs
  | readMissed now =>
    simp only [Health.stepOp, Option.some_inj] at h
    rw [← h]
    exact refresh_fracsOk s now hs
  | tick now elapsed =>
    simp only [Health.stepOp] at h
    exact record_tick_fracsOk p s now elapsed s' hp hs h
  | drainTps =>
    simp only [Health.stepOp, Option.some_inj] at h
    rw [← h]
    exact hs
  | drainSpt =>
    simp only [Health.stepOp, Option.some_inj] at h
    rw [← h]
    exact hs

/-- Running any operation sequence preserves the fraction-range invariant. -/
theorem runOps_fracsOk (p : ℚ) (hp : 0 < p) (ops : List Health.HOp) :
    ∀ s s' : Health, Health.fracsOk s → Health.runOps p s ops = some s' →
      Health.fracsOk s' := by
  induction ops with
  | nil =>
    intro s s' hs h
    unfold Health.runOps at h
    rw [Option.some_inj] at h
    rwa [← h]
  | cons op rest ih =>
    intro s s' hs h
    unfold Health.runOps at h
    split at h
    · exact Option.noConfusion h
    · rename_i s2 heq
      exact ih s2 s' (stepOp_fracsOk p s op s2 hp hs heq) h

/-- The fraction fields of a fresh monitor are in `[0, 1]`. -/
theorem fracsOk_init (t0 : ℚ) : Health.fracsOk (Health.init t0) := by
  unfold Health.fracsOk Health.init
  norm_num

/-- Claim C7: after any sequence of reads, `record_tick` calls and drains
starting from the initial state (with a positive tick period), the fraction
fields cpu, cpu_steal, ram, swap and missed_ticks all lie in `[0, 1]`. -/
theorem fraction_fields_invariant (p t0 : ℚ) (ops : List Health.HOp) (s' : Health)
    (hp : 0 < p) (h : Health.runOps p (Health.init t0) ops = some s') :
    Health.fracsOk s' :=
  runOps_fracsOk p hp ops (Health.init t0) s' (fracsOk_init t0) h

/-- Witness for C7: one tick at t = 40 (which closes a missed-tick window and
stores the ratio 39/40) keeps every fraction inside `[0, 1]`. -/
theorem fraction_fields_invariant_witness :
    Health.fracsOk
      (Health.missedStep 1 (Health.tpsStep 1 (Health.tickPre (Health.init 0) (1 / 2)) 40) 40) := by
  have hc : ¬ (1 : ℚ) - 1 * (1 / 2) < 0 := by norm_num
  have hrun : Health.runOps 1 (Health.init 0) [Health.HOp.tick 40 (1 / 2)] =
      some (Health.missedStep 1 (Health.tpsStep 1 (Health.tickPre (Health.init 0) (1 / 2)) 40)
        40) := by
    simp only [Health.runOps, Health.stepOp,
      Health.record_tick_eq_some 1 (Health.init 0) 40 (1 / 2) hc]
  exact fraction_fields_invariant 1 0 [Health.HOp.tick 40 (1 / 2)] _ (by norm_num) hrun
